import Mathlib

/-!
Verification model of the scrape-session persistence pipeline of the
izrake/scrapenet repository (Electron/JS).  The definitions below are a
shallow embedding of the JavaScript source:

* `parseMetric`        — `TweetDatabase.parseMetric`, electron/main/database.js 372-393
* `extractTweetId`     — the tweet-id derivation in `saveTweet`, database.js 113-118
* `saveTweet`          — `TweetDatabase.saveTweet`, database.js 108-242
* `completeScrapingSession` — database.js 481-578
* temp storage         — electron/main/temp-storage.js
* `scrapeProfileFlow`  — the commit/close tail of `scrapeProfile`, electron/main/scraper.js 313-426
* the lock-file interleaving model — the lock discipline of `saveTweet`, database.js 128-138

JavaScript numbers are modeled as `Option ℚ` (`none` = `NaN`): every numeric
value reached in the modeled code is produced by decimal parsing and by
exact `*1000` / `*1000000` scaling of short decimal literals, where IEEE
doubles behave exactly like rationals.  Internally the decimal parser keeps
the exact value as an integer pair `(n, d)` denoting `n / 10 ^ d`, and
`jsRoundScaled_eq` relates the integer computation to real rounding on ℚ.
JavaScript strings are modeled as `List Char`.
-/

/-- A JavaScript number: `none` models `NaN`, `some q` a (finite) value. -/
abbrev JSNum := Option ℚ

/-- `Math.round`: round half toward positive infinity. -/
def jsRound (q : ℚ) : ℤ := ⌊q + 1/2⌋

/-- `Math.round (n / 10 ^ d * mul)` computed purely on integers:
`⌊x + 1/2⌋ = ⌊(2 x · 10 ^ d + 10 ^ d) / (2 · 10 ^ d)⌋`. -/
def jsRoundScaled (n : ℤ) (d : ℕ) : ℤ := (2 * n + 10 ^ d) / ((2 * 10 ^ d : ℕ) : ℤ)

/-- `jsRoundScaled` is exactly `Math.round` of the represented rational. -/
theorem jsRoundScaled_eq (n : ℤ) (d : ℕ) :
    jsRoundScaled n d = jsRound ((n : ℚ) / (10 : ℚ) ^ d) := by
  unfold jsRoundScaled jsRound
  have h10 : ((10 : ℚ) ^ d) ≠ 0 := by positivity
  have key : (n : ℚ) / (10 : ℚ) ^ d + 1/2 = ((2 * n + 10 ^ d : ℤ) : ℚ) / ((2 * 10 ^ d : ℕ) : ℚ) := by
    push_cast
    field_simp
    ring
  rw [key, Rat.floor_intCast_div_natCast]

/-- Numeric value of a list of decimal digit characters (most significant first). -/
def digitsVal (l : List Char) : ℕ := l.foldl (fun a c => 10 * a + (c.toNat - 48)) 0

/-- Split a string into its leading run of decimal digits and the rest. -/
def takeDigits (l : List Char) : List Char × List Char :=
  (l.takeWhile Char.isDigit, l.dropWhile Char.isDigit)

/-- Value of the exponent part of a decimal literal (after the `e`);
an exponent with no digits contributes factor `10 ^ 0`, matching
`parseFloat`, which does not consume an incomplete exponent part. -/
def expVal (l : List Char) : ℤ :=
  match l with
  | '-' :: t => if (takeDigits t).1 = [] then 0 else -((digitsVal (takeDigits t).1 : ℤ))
  | '+' :: t => if (takeDigits t).1 = [] then 0 else ((digitsVal (takeDigits t).1 : ℤ))
  | _ => if (takeDigits l).1 = [] then 0 else ((digitsVal (takeDigits l).1 : ℤ))

/-- JavaScript `parseFloat`: skip leading whitespace, optional sign, longest
decimal-literal prefix (`digits [. digits] [e [sign] digits]`), `NaN` (`none`)
if no digit is found.  The result is the exact value `n / 10 ^ d` returned as
the pair `(n, d)` (see `ratOfScaled`).  The `Infinity` literal is not
modeled: at the single call site the argument has been lowercased, and
`parseFloat` only accepts the exact spelling `Infinity`, so that branch is
unreachable there. -/
def parseFloatPrefix (l0 : List Char) : Option (ℤ × ℕ) :=
  let l1 := l0.dropWhile Char.isWhitespace
  let neg : Bool := l1.head? = some '-'
  let l2 := match l1.head? with | some '-' => l1.tail | some '+' => l1.tail | _ => l1
  let ip := (takeDigits l2).1
  let r1 := (takeDigits l2).2
  let fp := match r1.head? with | some '.' => (takeDigits r1.tail).1 | _ => []
  let r2 := match r1.head? with | some '.' => (takeDigits r1.tail).2 | _ => r1
  if ip = [] ∧ fp = [] then none
  else
    let m0 : ℤ := ((digitsVal ip * 10 ^ fp.length + digitsVal fp : ℕ) : ℤ)
    let mant : ℤ := if neg then -m0 else m0
    let ex : ℤ :=
      match r2.head? with
      | some 'e' => expVal r2.tail
      | some 'E' => expVal r2.tail
      | _ => 0
    if 0 ≤ ex then some (mant * 10 ^ ex.toNat, fp.length)
    else some (mant, fp.length + ex.natAbs)

/-- The rational value denoted by a `parseFloatPrefix` result. -/
def ratOfScaled : Option (ℤ × ℕ) → Option ℚ :=
  Option.map (fun p => (p.1 : ℚ) / (10 : ℚ) ^ p.2)

/-- `String.prototype.trim`: drop whitespace from both ends. -/
def trimList (l : List Char) : List Char :=
  ((l.dropWhile Char.isWhitespace).reverse.dropWhile Char.isWhitespace).reverse

/-- JavaScript `parseInt` restricted to its call sites in `parseMetric`,
where the argument consists only of decimal digits and dots: the value of
the leading digit run, `NaN` (`none`) if there is none.  (The whitespace,
sign, and radix-prefix handling of full `parseInt` is unreachable there.) -/
def parseIntPrefix (l : List Char) : Option ℕ :=
  match (takeDigits l).1 with
  | [] => none
  | d => some (digitsVal d)

/-- A JavaScript value passed to `parseMetric`: `undefined`/`null`,
a number, or a string. -/
inductive MetricValue where
  | undef : MetricValue
  | num : Option ℚ → MetricValue
  | str : List Char → MetricValue
deriving DecidableEq

/-- `TweetDatabase.parseMetric` (database.js 372-393), line by line:
`!value && value !== 0` returns 0 for `undefined`, `null`, `""` and `NaN`;
a number is returned unchanged; a pure-digit string is `parseInt`-ed;
otherwise the string is lowercased and trimmed, a trailing `k` / `m`
multiplies the `parseFloat` of the remaining prefix by 1000 / 1000000 and
`Math.round`s the result; otherwise all characters except digits and dots
are removed and `parseInt(numStr) || 0` is returned.  `Char.toLower` models
`toLowerCase` (ASCII; identical on the reachable inputs). -/
def parseMetric : MetricValue → JSNum
  | MetricValue.undef => some 0
  | MetricValue.num none => some 0
  | MetricValue.num (some q) => some q
  | MetricValue.str s =>
    if s = [] then some 0
    else if s.all Char.isDigit then some ((digitsVal s : ℚ))
    else if (trimList (s.map Char.toLower)).getLast? = some 'k' then
      (parseFloatPrefix (trimList (s.map Char.toLower)).dropLast).map
        (fun p => ((jsRoundScaled (p.1 * 1000) p.2 : ℤ) : ℚ))
    else if (trimList (s.map Char.toLower)).getLast? = some 'm' then
      (parseFloatPrefix (trimList (s.map Char.toLower)).dropLast).map
        (fun p => ((jsRoundScaled (p.1 * 1000000) p.2 : ℤ) : ℚ))
    else
      match parseIntPrefix ((trimList (s.map Char.toLower)).filter (fun c => c.isDigit || c = '.')) with
      | none => some 0
      | some n => if n = 0 then some 0 else some ((n : ℚ))

example : parseMetric (MetricValue.str "1.5K".toList) = some 1500 := by decide
example : parseMetric (MetricValue.str "2M".toList) = some 2000000 := by decide
example : parseMetric (MetricValue.str "abc".toList) = some 0 := by decide
example : parseMetric (MetricValue.str "k".toList) = none := by decide
example : parseMetric (MetricValue.str "1,234".toList) = some 1234 := by decide
example : parseMetric (MetricValue.str "1.2e1k".toList) = some 12000 := by decide
example : parseMetric (MetricValue.str " 42 ".toList) = some 42 := by decide

/-!  Tweet-id derivation (database.js 113-118):
`const tweet_id = tweet.url.split('/status/')[1]?.split('?')[0];`
`if (!tweet_id) throw new Error('Invalid tweet URL: ' + tweet.url);`
`findSep sep l` returns the parts of `l` before and after the first
occurrence of the separator `sep`, so element `[1]` of the JavaScript
split is the part after the first occurrence, cut at the next one. -/

/-- The literal marker used to split tweet URLs. -/
def statusMarker : List Char := "/status/".toList

/-- First occurrence of `sep` in `l`: `some (before, after)`, or `none`
when `sep` does not occur.  Models `indexOf`-based splitting; all call
sites pass the nonempty `statusMarker`. -/
def findSep (sep : List Char) : List Char → Option (List Char × List Char)
  | [] => none
  | c :: cs =>
    if sep.isPrefixOf (c :: cs) then some ([], (c :: cs).drop sep.length)
    else (findSep sep cs).map (fun p => (c :: p.1, p.2))

/-- Element `[1]` of `l.split(sep)`: the chunk after the first occurrence
of `sep`, up to the second occurrence (or the end). -/
def splitSecondChunk (sep l : List Char) : Option (List Char) :=
  (findSep sep l).map (fun p =>
    match findSep sep p.2 with
    | none => p.2
    | some q => q.1)

/-- `tweet.url.split('/status/')[1]?.split('?')[0]` followed by the
falsiness check: `none` models the `throw` for a missing or empty id. -/
def extractTweetId (url : List Char) : Option (List Char) :=
  match splitSecondChunk statusMarker url with
  | none => none
  | some s =>
    let id := s.takeWhile (fun c => c ≠ '?')
    if id = [] then none else some id

example : extractTweetId "https://x.com/a/status/123?x=1".toList = some "123".toList := by decide
example : extractTweetId "https://x.com/a/b".toList = none := by decide
example : extractTweetId "https://x.com/a/status/".toList = none := by decide
example : extractTweetId "https://x.com/a/status/12/status/34".toList = some "12".toList := by decide

/-!  Data model of `TweetDatabase` (database.js).  The local backend is the
per-session JSON file (`session_<id>.json` / `sessionapi_<id>.json`; the
`source` parameter only selects the file name, so one `localFile` field
models the file of the session under consideration).  The shared backend
is MongoDB: a tweets collection keyed by `tweet_id` and a sessions
collection keyed by `_id`.  Timestamps (`new Date()`) are modeled by the
opaque `now : ℕ` argument threaded through each operation.  The lock file
around the local read-modify-write is modeled separately (see the
two-writer interleaving model below). -/

/-- `tweet.user`: `handle` is always read, `name` may be absent. -/
structure TweetUser where
  handle : String
  name : Option String
deriving DecidableEq

/-- The four raw counters of `tweet.metrics` (absent fields are `undef`). -/
structure RawMetrics where
  replies : MetricValue
  retweets : MetricValue
  likes : MetricValue
  views : MetricValue
deriving DecidableEq

/-- A raw record as delivered by the producer (scraper extraction). -/
structure RawTweet where
  url : List Char
  user : TweetUser
  content : Option String
  timestamp : Option ℕ
  metrics : RawMetrics
deriving DecidableEq

/-- One element of the `tweets` array of the local session file
(database.js 161-169): metrics are stored raw, no normalization. -/
structure LocalTweet where
  tweet_id : List Char
  user : TweetUser
  content : Option String
  timestamp : Option ℕ
  url : List Char
  metrics : RawMetrics
  saved_at : ℕ
deriving DecidableEq

/-- The local session file.  Fields that the fresh file created inside
`saveTweet` (database.js 147-153) lacks are `Option`s. -/
structure SessionData where
  session_id : String
  status : Option String
  tweets : List LocalTweet
  tweet_count : Option ℕ
  tweets_found : Option ℕ
  completed_at : Option ℕ
  source : Option String
  encrypted : Option Bool
  created_at : ℕ
  updated_at : ℕ
deriving DecidableEq

/-- The four normalized counters of a MongoDB tweet document
(database.js 197-202). -/
structure ParsedMetrics where
  replies : JSNum
  retweets : JSNum
  likes : JSNum
  views : JSNum
deriving DecidableEq

/-- `this.parseMetric` applied to each raw counter. -/
def parseAllMetrics (m : RawMetrics) : ParsedMetrics :=
  ⟨parseMetric m.replies, parseMetric m.retweets, parseMetric m.likes, parseMetric m.views⟩

/-- The `$set` part of the MongoDB tweet upsert (database.js 189-204). -/
structure TweetDoc where
  tweet_id : List Char
  session_id : String
  user_handle : String
  user_name : String
  content : String
  timestamp : ℕ
  url : List Char
  metrics : ParsedMetrics
  updated_at : ℕ
deriving DecidableEq

/-- A stored MongoDB tweet document: the `$set` fields plus the
`$setOnInsert` field `created_at`. -/
structure MongoTweet where
  doc : TweetDoc
  created_at : ℕ
deriving DecidableEq

/-- A MongoDB session document (the fields the modeled operations touch). -/
structure MongoSession where
  sid : String
  status : String
  tweets_found : Option ℕ
  completed_at : Option ℕ
  source : Option String
  encrypted : Option Bool
  updated_at : ℕ
deriving DecidableEq

/-- Combined persistent state: the local session file (`none` = absent)
and the two MongoDB collections. -/
structure DbState where
  localFile : Option SessionData
  mongoTweets : List MongoTweet
  mongoSessions : List MongoSession
deriving DecidableEq

/-- The fresh session data created when the local file is absent or
unreadable (database.js 147-153): note it has no `status` field. -/
def freshSessionData (sessionId : String) (now : ℕ) : SessionData :=
  ⟨sessionId, none, [], none, none, none, none, none, now, now⟩

/-- The local read-modify-write body (database.js 156-182): dedup on
`tweet_id`; on a new id, push the raw tweet, bump `updated_at` and set
`tweet_count`; on a duplicate id leave the file untouched. -/
def localCommit (sd : SessionData) (t : RawTweet) (id : List Char) (now : ℕ) : SessionData :=
  if sd.tweets.any (fun lt => lt.tweet_id = id) then sd
  else
    { sd with
      tweets := sd.tweets ++ [⟨id, t.user, t.content, t.timestamp, t.url, t.metrics, now⟩],
      tweet_count := some (sd.tweets.length + 1),
      updated_at := now }

/-- The MongoDB tweet document built in `saveTweet` (database.js 189-204):
`user.name || ''`, `content || ''`, `timestamp ? new Date(timestamp) : new
Date()`, and `parseMetric` on each counter. -/
def mkTweetDoc (t : RawTweet) (sessionId : String) (id : List Char) (now : ℕ) : TweetDoc :=
  ⟨id, sessionId, t.user.handle, t.user.name.getD "", t.content.getD "",
    t.timestamp.getD now, t.url, parseAllMetrics t.metrics, now⟩

/-- `updateOne({tweet_id}, {$set: doc, $setOnInsert: {created_at}}, {upsert:
true})`: replace the `$set` fields of the first document with this
`tweet_id`, keeping its `created_at`; insert if there is none. -/
def upsertFirst (coll : List MongoTweet) (doc : TweetDoc) (now : ℕ) : List MongoTweet :=
  match coll with
  | [] => [⟨doc, now⟩]
  | mt :: rest =>
    if mt.doc.tweet_id = doc.tweet_id then ⟨doc, mt.created_at⟩ :: rest
    else mt :: upsertFirst rest doc now

/-- `countDocuments({session_id})` (database.js 397-398). -/
def sessionTweetCount (coll : List MongoTweet) (sessionId : String) : ℕ :=
  (coll.filter (fun mt => mt.doc.session_id = sessionId)).length

/-- The session update of `updateSessionTweetCount` (database.js 400-409):
set `tweets_found` and a count-derived status on the (first) session
document with this id; no-op when the session is absent (`updateOne`
without upsert).  Its own errors are caught and swallowed
(database.js 412-414), so the operation is modeled as total. -/
def setSessionCount : List MongoSession → String → ℕ → ℕ → List MongoSession
  | [], _, _, _ => []
  | s :: ss, sessionId, count, now =>
    if s.sid = sessionId then
      { s with
        tweets_found := some count,
        status := if 0 < count then "completed" else "incomplete",
        updated_at := now } :: ss
    else s :: setSessionCount ss sessionId count now

/-- `TweetDatabase.saveTweet` (database.js 108-242).  `shareData` is the
configuration flag; `mirrorOk = false` models a throw anywhere in the
MongoDB mirror path (connection or write).  Returns the new state and the
JavaScript result: `.ok true` for a normal return, `.error` for a throw
(the catch at database.js 238-241 rethrows).  The local write happens
before the mirror is attempted, so a mirror throw leaves the local commit
in place. -/
def saveTweet (shareData mirrorOk : Bool) (st : DbState) (t : RawTweet)
    (sessionId : String) (now : ℕ) : DbState × Except String Bool :=
  match extractTweetId t.url with
  | none => (st, Except.error "Invalid tweet URL")
  | some id =>
    let sd := st.localFile.getD (freshSessionData sessionId now)
    let st1 : DbState := { st with localFile := some (localCommit sd t id now) }
    if shareData then
      if mirrorOk then
        let st2 : DbState := { st1 with mongoTweets := upsertFirst st1.mongoTweets (mkTweetDoc t sessionId id now) now }
        let st3 : DbState := { st2 with mongoSessions := setSessionCount st2.mongoSessions sessionId (sessionTweetCount st2.mongoTweets sessionId) now }
        (st3, Except.ok true)
      else (st1, Except.error "mirror write failed")
    else (st1, Except.ok true)

/-- The close-time update of the first session document with this id
(database.js 513-527). -/
def completeFirstSession : List MongoSession → String → String → ℕ → ℕ → List MongoSession
  | [], _, _, _, _ => []
  | s :: ss, sessionId, finalStatus, tweetsFound, now =>
    if s.sid = sessionId then
      { s with
        status := finalStatus,
        tweets_found := some tweetsFound,
        completed_at := some now,
        updated_at := now } :: ss
    else s :: completeFirstSession ss sessionId finalStatus tweetsFound now

/-- `TweetDatabase.completeScrapingSession` (database.js 481-578).  Shared
backend: the requested status is kept if it is `failed`, otherwise replaced
by `completed` / `incomplete` from `tweetsFound` (502-509), and the session
document is updated.  Local backend: the session file is rewritten with the
requested status verbatim (556-567); a missing/unreadable file throws. -/
def completeScrapingSession (shareData : Bool) (st : DbState) (sessionId : String)
    (tweetsFound : ℕ) (status : String) (now : ℕ) : DbState × Except String Bool :=
  if shareData then
    let finalStatus := if status ≠ "failed" then (if 0 < tweetsFound then "completed" else "incomplete") else status
    ({ st with mongoSessions := completeFirstSession st.mongoSessions sessionId finalStatus tweetsFound now },
      Except.ok (st.mongoSessions.any (fun s => s.sid = sessionId)))
  else
    match st.localFile with
    | none => (st, Except.error "ENOENT")
    | some sd =>
      let sd1 : SessionData :=
        { sd with
          status := some status,
          completed_at := some now,
          tweets_found := some tweetsFound,
          updated_at := now }
      ({ st with localFile := some sd1 }, Except.ok true)

/-- The status recorded in the local session file, if any. -/
def getLocalStatus (st : DbState) : Option String :=
  match st.localFile with
  | none => none
  | some sd => sd.status

/-- The status of the (first) MongoDB session document with this id. -/
def getSessionStatus (sessions : List MongoSession) (sessionId : String) : Option String :=
  (sessions.find? (fun s => s.sid = sessionId)).map (fun s => s.status)

/-!  Temp storage (temp-storage.js).  The temp directory is a list of
(file name, parsed payload) pairs in directory-listing order; payloads are
opaque (ℕ).  File names are JavaScript strings, compared by the character
lists they denote. -/

/-- The temp directory state. -/
abbrev TempStore := List (String × ℕ)

/-- `f.startsWith(sid)` on file names. -/
def strStartsWith (sid f : String) : Bool := sid.toList.isPrefixOf f.toList

/-- The snapshot file name written by `saveTempData` (temp-storage.js 56):
`` `${sessionId}_${data.type}.json` ``. -/
def tempFileName (sessionId ty : String) : String := sessionId ++ "_" ++ ty ++ ".json"

/-- Whether `name` can be a snapshot file of session `sessionId`, i.e.
begins with the id followed by the `_` delimiter of `tempFileName`. -/
def isSnapshotName (sessionId name : String) : Bool :=
  strStartsWith (sessionId ++ "_") name

/-- `fs.writeFile` of a snapshot (temp-storage.js 48-78): overwrite the
file of that exact name, or create it. -/
def writeTemp (store : TempStore) (name : String) (payload : ℕ) : TempStore :=
  if store.any (fun e => e.1 = name) then
    store.map (fun e => if e.1 = name then (name, payload) else e)
  else store ++ [(name, payload)]

/-- `TempStorage.saveTempData` (temp-storage.js 48-78). -/
def saveTempData (store : TempStore) (sessionId ty : String) (payload : ℕ) : TempStore :=
  writeTemp store (tempFileName sessionId ty) payload

/-- `TempStorage.loadTempData` (temp-storage.js 80-107): list the
directory, keep the files whose name starts with the session id, return
`null` when there is none, else the content of the first. -/
def loadTempData (store : TempStore) (sessionId : String) : Except String (Option ℕ) :=
  match store.filter (fun e => strStartsWith sessionId e.1) with
  | [] => Except.ok none
  | e :: _ => Except.ok (some e.2)

/-- `TempStorage.deleteTempData` (temp-storage.js 109-136): unlink every
file whose name starts with the session id; a session with no files is a
plain return, not an error. -/
def deleteTempData (store : TempStore) (sessionId : String) : TempStore :=
  store.filter (fun e => ¬ strStartsWith sessionId e.1)

/-- Number of staging snapshot files the store holds for a session
(files the prefix filter of temp-storage.js associates with it). -/
def snapCount (store : TempStore) (sessionId : String) : ℕ :=
  (store.filter (fun e => strStartsWith sessionId e.1)).length

/-!  The commit/close tail of `TwitterScraper.scrapeProfile`
(scraper.js 313-426). -/

/-- Where an unrecoverable producer error occurs, relative to the staging
write at scraper.js 343: `goto`/extraction can throw before it
(scraper.js 327-338), later steps after it; `noCrash` is the normal path. -/
inductive CrashPoint where
  | beforeStaging : CrashPoint
  | afterStaging : CrashPoint
  | noCrash : CrashPoint
deriving DecidableEq

/-- The per-tweet save loop (scraper.js 371-382): each `saveTweet` throw is
caught and counted in `results.failed`, a normal return bumps
`results.success`; the loop never aborts.  Returns (state, success,
failed). -/
def commitLoop (shareData : Bool) (sessionId : String) (now : ℕ) :
    DbState → List RawTweet → DbState × ℕ × ℕ
  | st, [] => (st, 0, 0)
  | st, t :: ts =>
    match saveTweet shareData true st t sessionId now with
    | (st1, Except.ok _) =>
      let r := commitLoop shareData sessionId now st1 ts
      (r.1, r.2.1 + 1, r.2.2)
    | (st1, Except.error _) =>
      let r := commitLoop shareData sessionId now st1 ts
      (r.1, r.2.1, r.2.2 + 1)

/-- `scrapeProfile` from the staging write to session close
(scraper.js 341-425): write one staging snapshot, run the save loop, then
if `results.success > 0` delete the staging data and close `completed`,
else keep it and close `incomplete` (393-402); an unrecoverable error
instead closes `failed` in the catch block (417-425), with the staging
data written only if the error came after scraper.js 343.  Returns the
final database state, temp store, and the status passed to the close. -/
def scrapeProfileFlow (shareData : Bool) (st : DbState) (temp : TempStore)
    (sessionId : String) (tweets : List RawTweet) (crash : CrashPoint) (now : ℕ) :
    DbState × TempStore × String :=
  match crash with
  | CrashPoint.beforeStaging =>
    ((completeScrapingSession shareData st sessionId 0 "failed" now).1, temp, "failed")
  | CrashPoint.afterStaging =>
    let temp1 := saveTempData temp sessionId "profile" 0
    ((completeScrapingSession shareData st sessionId 0 "failed" now).1, temp1, "failed")
  | CrashPoint.noCrash =>
    let temp1 := saveTempData temp sessionId "profile" 0
    let r := commitLoop shareData sessionId now st tweets
    if 0 < r.2.1 then
      let temp2 := deleteTempData temp1 sessionId
      ((completeScrapingSession shareData r.1 sessionId r.2.1 "completed" now).1, temp2, "completed")
    else
      ((completeScrapingSession shareData r.1 sessionId r.2.1 "incomplete" now).1, temp1, "incomplete")

/-!  Two-writer interleaving model of the lock discipline of `saveTweet`
(database.js 128-138, 230-237).  Both concurrent commits run inside the
single Electron main process, so the JavaScript run-to-completion rule
fixes the atomicity: control can only change hands at an `await`.  The
`await`s inside the critical path are the 100ms sleep of the busy-wait
(line 133), `fsPromises.readFile` (143) and `fsPromises.writeFile` (175);
in particular there is NO `await` between the final `fs.existsSync` check
returning false and `fs.writeFileSync(lockFile)` (132-138), so the
check-and-create is one atomic step.  Each writer therefore executes:
pc 0 — busy-wait plus acquisition: fires only when the lock file is
        absent, and then also creates it (`existsSync` + `writeFileSync`
        with no suspension point between them);
pc 1 — the session-file read resolves into `observed`;
pc 2 — dedup check against `observed`, then the write of `observed` plus
        the writer's own record as the whole file resolves (the duplicate
        case writes nothing; file effects of the awaited I/O are placed at
        the resolution step — no other writer can touch the file in
        between, because it would need the lock);
pc 3 — `fs.unlinkSync(lockFile)` in the `finally`.
A schedule is the order in which the two writers take steps. -/

/-- The session file and lock sentinel on disk. -/
structure LockFs where
  lockPresent : Bool
  fileIds : List (List Char)
deriving DecidableEq

/-- One writer: program counter and the session data it read. -/
structure WriterSt where
  pc : ℕ
  observed : List (List Char)
deriving DecidableEq

/-- The whole two-writer system. -/
structure TwoWriters where
  fs : LockFs
  w0 : WriterSt
  w1 : WriterSt
deriving DecidableEq

/-- One step of one writer committing record id `rid` (see the listing
above); a writer whose busy-wait finds the lock present stays put, and
the wait plus the lock creation is a single atomic step. -/
def writerStep (fs : LockFs) (w : WriterSt) (rid : List Char) : LockFs × WriterSt :=
  match w.pc with
  | 0 =>
    if fs.lockPresent then (fs, w)
    else ({ fs with lockPresent := true }, { w with pc := 1 })
  | 1 => (fs, { w with observed := fs.fileIds, pc := 2 })
  | 2 =>
    if w.observed.any (fun i => i = rid) then (fs, { w with pc := 3 })
    else ({ fs with fileIds := w.observed ++ [rid] }, { w with pc := 3 })
  | 3 => ({ fs with lockPresent := false }, { w with pc := 4 })
  | _ => (fs, w)

/-- Let writer 0 (`false`) or writer 1 (`true`) take its next step. -/
def sysStep (r0 r1 : List Char) (s : TwoWriters) (i : Bool) : TwoWriters :=
  if i then
    let p := writerStep s.fs s.w1 r1
    ⟨p.1, s.w0, p.2⟩
  else
    let p := writerStep s.fs s.w0 r0
    ⟨p.1, p.2, s.w1⟩

/-- Run a schedule of writer turns. -/
def runSched (r0 r1 : List Char) : List Bool → TwoWriters → TwoWriters
  | [], s => s
  | i :: rest, s => runSched r0 r1 rest (sysStep r0 r1 s i)

/-- Both writers at their busy-wait, lock absent, session file empty
(no pre-existing records). -/
def initTwoWriters : TwoWriters := ⟨⟨false, []⟩, ⟨0, []⟩, ⟨0, []⟩⟩

/-- Every state the two-writer system (record ids `1` and `2`, empty
initial session file) can reach under any schedule. -/
def lockReach : List TwoWriters :=
  [⟨⟨false, []⟩, ⟨0, []⟩, ⟨0, []⟩⟩,
   ⟨⟨true, []⟩, ⟨0, []⟩, ⟨1, []⟩⟩,
   ⟨⟨true, []⟩, ⟨0, []⟩, ⟨2, []⟩⟩,
   ⟨⟨true, [['2']]⟩, ⟨0, []⟩, ⟨3, []⟩⟩,
   ⟨⟨false, [['2']]⟩, ⟨0, []⟩, ⟨4, []⟩⟩,
   ⟨⟨true, []⟩, ⟨1, []⟩, ⟨0, []⟩⟩,
   ⟨⟨true, [['2']]⟩, ⟨1, []⟩, ⟨4, []⟩⟩,
   ⟨⟨true, []⟩, ⟨2, []⟩, ⟨0, []⟩⟩,
   ⟨⟨true, [['2']]⟩, ⟨2, [['2']]⟩, ⟨4, []⟩⟩,
   ⟨⟨true, [['1']]⟩, ⟨3, []⟩, ⟨0, []⟩⟩,
   ⟨⟨true, [['2'], ['1']]⟩, ⟨3, [['2']]⟩, ⟨4, []⟩⟩,
   ⟨⟨false, [['1']]⟩, ⟨4, []⟩, ⟨0, []⟩⟩,
   ⟨⟨true, [['1']]⟩, ⟨4, []⟩, ⟨1, []⟩⟩,
   ⟨⟨true, [['1']]⟩, ⟨4, []⟩, ⟨2, [['1']]⟩⟩,
   ⟨⟨true, [['1'], ['2']]⟩, ⟨4, []⟩, ⟨3, [['1']]⟩⟩,
   ⟨⟨false, [['1'], ['2']]⟩, ⟨4, []⟩, ⟨4, [['1']]⟩⟩,
   ⟨⟨false, [['2'], ['1']]⟩, ⟨4, [['2']]⟩, ⟨4, []⟩⟩]

/-- `lockReach` is closed under both writers' steps. -/
theorem lockReachClosed :
    ∀ s ∈ lockReach, sysStep "1".toList "2".toList s false ∈ lockReach
      ∧ sysStep "1".toList "2".toList s true ∈ lockReach := by decide

/-- Running any schedule stays inside `lockReach`. -/
theorem lockReachRun : ∀ (sched : List Bool) (s : TwoWriters), s ∈ lockReach →
    runSched "1".toList "2".toList sched s ∈ lockReach
  | [], _, hs => hs
  | false :: rest, s, hs => lockReachRun rest _ (lockReachClosed s hs).1
  | true :: rest, s, hs => lockReachRun rest _ (lockReachClosed s hs).2

/-- Every reachable state satisfies mutual exclusion, the no-lost-update
read property, and — once both writers are done — joint persistence with
the later reader having seen the other record. -/
theorem lockReachSafe :
    ∀ s ∈ lockReach,
      (¬((1 ≤ s.w0.pc ∧ s.w0.pc ≤ 3) ∧ (1 ≤ s.w1.pc ∧ s.w1.pc ≤ 3)))
      ∧ ¬(2 ≤ s.w0.pc ∧ 2 ≤ s.w1.pc ∧ s.w0.observed = [] ∧ s.w1.observed = [])
      ∧ (s.w0.pc = 4 → s.w1.pc = 4 →
          "1".toList ∈ s.fs.fileIds ∧ "2".toList ∈ s.fs.fileIds
          ∧ ("1".toList ∈ s.w1.observed ∨ "2".toList ∈ s.w0.observed)) := by decide

/-!  Claim theorems. -/

/-- C8: under the run-to-completion interleaving semantics of the single
Node process (control changes hands only at `await`s, and there is no
`await` between the `existsSync` check and the `writeFileSync` that
creates the lock file), the lock-protected read-modify-write gives at
most one writer in the critical section for EVERY schedule of two
concurrent commits to the same empty session file; the two writers never
both observe zero pre-existing records, and when both commits have
finished, both records are in the file and the second reader observed the
first writer's record (no lost update). -/
theorem C8_lock_exclusive (sched : List Bool) (s : TwoWriters)
    (hs : s = runSched "1".toList "2".toList sched initTwoWriters) :
    (¬((1 ≤ s.w0.pc ∧ s.w0.pc ≤ 3) ∧ (1 ≤ s.w1.pc ∧ s.w1.pc ≤ 3)))
    ∧ ¬(2 ≤ s.w0.pc ∧ 2 ≤ s.w1.pc ∧ s.w0.observed = [] ∧ s.w1.observed = [])
    ∧ (s.w0.pc = 4 → s.w1.pc = 4 →
        "1".toList ∈ s.fs.fileIds ∧ "2".toList ∈ s.fs.fileIds
        ∧ ("1".toList ∈ s.w1.observed ∨ "2".toList ∈ s.w0.observed)) := by
  subst hs
  exact lockReachSafe _ (lockReachRun sched initTwoWriters (by decide))

/-- C8 witness: `C8_lock_exclusive` at the schedule where writer 0 runs
its four steps and then writer 1 runs its four: both records persisted
and writer 1 observed writer 0's record. -/
theorem C8_lock_witness :
    "1".toList ∈ (runSched "1".toList "2".toList
        [false, false, false, false, true, true, true, true] initTwoWriters).fs.fileIds
    ∧ "2".toList ∈ (runSched "1".toList "2".toList
        [false, false, false, false, true, true, true, true] initTwoWriters).fs.fileIds
    ∧ ("1".toList ∈ (runSched "1".toList "2".toList
          [false, false, false, false, true, true, true, true] initTwoWriters).w1.observed
        ∨ "2".toList ∈ (runSched "1".toList "2".toList
          [false, false, false, false, true, true, true, true] initTwoWriters).w0.observed) := by
  have h := C8_lock_exclusive [false, false, false, false, true, true, true, true]
    (runSched "1".toList "2".toList
      [false, false, false, false, true, true, true, true] initTwoWriters) rfl
  exact h.2.2 (by decide) (by decide)

/-- C3 (amended): `parseMetric` is a total function; `undefined`/`null`
and `NaN` map to 0, a number is returned unchanged (also when it is not an
integer), a nonempty pure-digit string parses as its integer value, a
trailing `k`/`K` (after lowercasing and trimming) multiplies the parsed
decimal prefix by 1000 and rounds to nearest — yielding `NaN`, not 0, when
that prefix has no leading number — a trailing `m`/`M` likewise with
1000000, and every other string yields a nonnegative integer (non-numeric
characters stripped, unparseable → 0).  The spec table holds. -/
theorem C3_parseMetric_rules :
    parseMetric MetricValue.undef = some 0
    ∧ parseMetric (MetricValue.num none) = some 0
    ∧ (∀ q : ℚ, parseMetric (MetricValue.num (some q)) = some q)
    ∧ (∀ s : List Char, s ≠ [] → s.all Char.isDigit = true →
        parseMetric (MetricValue.str s) = some ((digitsVal s : ℚ)))
    ∧ (∀ (s : List Char) (n : ℤ) (d : ℕ), s ≠ [] → ¬ s.all Char.isDigit = true →
        (trimList (s.map Char.toLower)).getLast? = some 'k' →
        parseFloatPrefix (trimList (s.map Char.toLower)).dropLast = some (n, d) →
        parseMetric (MetricValue.str s) = some ((jsRound ((n : ℚ) / (10 : ℚ) ^ d * 1000) : ℤ) : ℚ))
    ∧ (∀ (s : List Char) (n : ℤ) (d : ℕ), s ≠ [] → ¬ s.all Char.isDigit = true →
        ¬ (trimList (s.map Char.toLower)).getLast? = some 'k' →
        (trimList (s.map Char.toLower)).getLast? = some 'm' →
        parseFloatPrefix (trimList (s.map Char.toLower)).dropLast = some (n, d) →
        parseMetric (MetricValue.str s) = some ((jsRound ((n : ℚ) / (10 : ℚ) ^ d * 1000000) : ℤ) : ℚ))
    ∧ (∀ s : List Char, s ≠ [] → ¬ s.all Char.isDigit = true →
        (trimList (s.map Char.toLower)).getLast? = some 'k' →
        parseFloatPrefix (trimList (s.map Char.toLower)).dropLast = none →
        parseMetric (MetricValue.str s) = none)
    ∧ (∀ s : List Char, s ≠ [] → ¬ s.all Char.isDigit = true →
        ¬ (trimList (s.map Char.toLower)).getLast? = some 'k' →
        ¬ (trimList (s.map Char.toLower)).getLast? = some 'm' →
        ∃ nn : ℕ, parseMetric (MetricValue.str s) = some ((nn : ℚ)))
    ∧ parseMetric (MetricValue.str "0".toList) = some 0
    ∧ parseMetric (MetricValue.str "1.5K".toList) = some 1500
    ∧ parseMetric (MetricValue.str "2M".toList) = some 2000000
    ∧ parseMetric (MetricValue.str "".toList) = some 0
    ∧ parseMetric (MetricValue.str "abc".toList) = some 0
    ∧ parseMetric (MetricValue.num (some 42)) = some 42 := by
  refine ⟨rfl, rfl, fun q => rfl, ?_, ?_, ?_, ?_, ?_,
    by decide, by decide, by decide, by decide, by decide, rfl⟩
  · intro s h1 h2
    simp only [parseMetric]
    rw [if_neg h1, if_pos h2]
  · intro s n d h1 h2 hk hp
    have hr : jsRoundScaled (n * 1000) d = jsRound ((n : ℚ) / (10 : ℚ) ^ d * 1000) := by
      rw [jsRoundScaled_eq]
      congr 1
      push_cast
      ring
    simp only [parseMetric]
    rw [if_neg h1, if_neg h2, if_pos hk, hp]
    simp [hr]
  · intro s n d h1 h2 hk hm hp
    have hr : jsRoundScaled (n * 1000000) d = jsRound ((n : ℚ) / (10 : ℚ) ^ d * 1000000) := by
      rw [jsRoundScaled_eq]
      congr 1
      push_cast
      ring
    simp only [parseMetric]
    rw [if_neg h1, if_neg h2, if_neg hk, if_pos hm, hp]
    simp [hr]
  · intro s h1 h2 hk hp
    simp only [parseMetric]
    rw [if_neg h1, if_neg h2, if_pos hk, hp]
    rfl
  · intro s h1 h2 hk hm
    simp only [parseMetric]
    rw [if_neg h1, if_neg h2, if_neg hk, if_neg hm]
    cases hI : parseIntPrefix ((trimList (s.map Char.toLower)).filter (fun c => c.isDigit || c = '.')) with
    | none => exact ⟨0, by simp⟩
    | some n =>
      by_cases hz : n = 0
      · exact ⟨0, by simp [hz]⟩
      · exact ⟨n, by simp [hz]⟩

/-- C3 witness: the hypothesis-bearing rules of `C3_parseMetric_rules`
applied at concrete inputs. -/
theorem C3_parseMetric_witness :
    parseMetric (MetricValue.str "42".toList) = some ((digitsVal "42".toList : ℚ))
    ∧ parseMetric (MetricValue.str "1.5K".toList)
        = some ((jsRound ((15 : ℚ) / (10 : ℚ) ^ 1 * 1000) : ℤ) : ℚ)
    ∧ parseMetric (MetricValue.str "2M".toList)
        = some ((jsRound ((2 : ℚ) / (10 : ℚ) ^ 0 * 1000000) : ℤ) : ℚ)
    ∧ parseMetric (MetricValue.str "zz".toList) = some ((0 : ℕ) : ℚ) := by
  refine ⟨?_, ?_, ?_, ?_⟩
  · exact C3_parseMetric_rules.2.2.2.1 "42".toList (by decide) (by decide)
  · exact C3_parseMetric_rules.2.2.2.2.1 "1.5K".toList 15 1 (by decide) (by decide)
      (by decide) (by decide)
  · exact C3_parseMetric_rules.2.2.2.2.2.1 "2M".toList 2 0 (by decide) (by decide)
      (by decide) (by decide) (by decide)
  · obtain ⟨nn, h⟩ := C3_parseMetric_rules.2.2.2.2.2.2.2.1 "zz".toList (by decide) (by decide)
      (by decide) (by decide)
    have : nn = 0 := by
      have h2 : parseMetric (MetricValue.str "zz".toList) = some ((0 : ℕ) : ℚ) := by decide
      rw [h2] at h
      exact_mod_cast (Option.some.inj h).symm
    rwa [this] at h

/-- C3 counterexample: the claim states that `parseMetric` always returns
an integer and that unparseable input maps to 0, but the input `"k"` (a
suffix with an unparseable prefix) yields `NaN`, and a non-integer numeric
input is returned unchanged rather than as an integer. -/
theorem C3_parseMetric_nan :
    parseMetric (MetricValue.str "k".toList) = none
    ∧ (none : JSNum) ≠ some 0
    ∧ parseMetric (MetricValue.num (some ⟨3, 2, by decide, by decide⟩))
        = some ⟨3, 2, by decide, by decide⟩
    ∧ ((⟨3, 2, by decide, by decide⟩ : ℚ).den ≠ 1) :=
  ⟨by decide, by decide, rfl, by decide⟩

/-- If a session document with the given id is present, the close-time
update stores exactly the computed final status on it. -/
theorem getStatus_completeFirst (sessions : List MongoSession) (sessionId fs : String)
    (tf now : ℕ) (h : sessions.any (fun s => s.sid = sessionId) = true) :
    getSessionStatus (completeFirstSession sessions sessionId fs tf now) sessionId = some fs := by
  induction sessions with
  | nil => simp at h
  | cons s ss ih =>
    by_cases hs : s.sid = sessionId
    · simp [completeFirstSession, hs, getSessionStatus, List.find?]
    · simp only [List.any_cons, Bool.or_eq_true, decide_eq_true_eq] at h
      rcases h with h | h
      · exact absurd h hs
      · simp only [completeFirstSession, if_neg hs]
        have := ih (by simpa using h)
        simpa [getSessionStatus, List.find?, hs] using this

/-- C2 (amended): at close time the shared backend keeps a requested
`failed` status and otherwise derives `completed` / `incomplete` from the
count; the local backend performs no count-based derivation at all — it
stores the requested status verbatim. -/
theorem C2_close_status_rule :
    (∀ (st : DbState) (sessionId : String) (tf : ℕ) (status : String) (now : ℕ),
      st.mongoSessions.any (fun s => s.sid = sessionId) = true →
      getSessionStatus ((completeScrapingSession true st sessionId tf status now).1.mongoSessions) sessionId
        = some (if status = "failed" then "failed" else if 0 < tf then "completed" else "incomplete"))
    ∧ (∀ (st : DbState) (sd : SessionData) (sessionId : String) (tf : ℕ) (status : String) (now : ℕ),
      st.localFile = some sd →
      getLocalStatus (completeScrapingSession false st sessionId tf status now).1 = some status) := by
  constructor
  · intro st sessionId tf status now h
    have hfs : (if status ≠ "failed" then (if 0 < tf then "completed" else "incomplete") else status)
        = (if status = "failed" then "failed" else if 0 < tf then "completed" else "incomplete") := by
      by_cases hf : status = "failed"
      · simp [hf]
      · simp [hf]
    simp only [completeScrapingSession, if_pos rfl]
    rw [hfs]
    exact getStatus_completeFirst st.mongoSessions sessionId _ tf now h
  · intro st sd sessionId tf status now h
    simp [completeScrapingSession, h, getLocalStatus]

/-- C2 witness: `C2_close_status_rule` applied to one shared-mode close
(requested `go`, 3 records, stored `completed`) and one local-mode close
(requested `failed`, stored verbatim). -/
theorem C2_close_status_witness :
    getSessionStatus ((completeScrapingSession true
        ⟨none, [], [⟨"s1", "in_progress", none, none, none, none, 0⟩]⟩
        "s1" 3 "go" 5).1.mongoSessions) "s1" = some "completed"
    ∧ getLocalStatus (completeScrapingSession false
        ⟨some (freshSessionData "s2" 0), [], []⟩ "s2" 0 "failed" 5).1 = some "failed" := by
  constructor
  · have h := C2_close_status_rule.1 ⟨none, [], [⟨"s1", "in_progress", none, none, none, none, 0⟩]⟩
      "s1" 3 "go" 5 (by decide)
    have h2 : (if ("go" : String) = "failed" then ("failed" : String)
        else if 0 < 3 then "completed" else "incomplete") = "completed" := by decide
    rw [h2] at h
    exact h
  · exact C2_close_status_rule.2 ⟨some (freshSessionData "s2" 0), [], []⟩
      (freshSessionData "s2" 0) "s2" 0 "failed" 5 rfl

/-- C2 counterexample: in the local backend a close with
`committed_count = 0` and a non-`failed` requested status stores that
status verbatim — here `completed` where the claim requires `incomplete`. -/
theorem C2_local_close_verbatim :
    getLocalStatus (completeScrapingSession false
        ⟨some (freshSessionData "s" 0), [], []⟩ "s" 0 "completed" 5).1 = some "completed"
    ∧ ("completed" : String) ≠ "incomplete" :=
  ⟨rfl, by decide⟩

/-- A filter by a predicate that is false on every element is empty. -/
theorem filterNilOfFalse {α : Type} (p : α → Bool) (l : List α)
    (h : ∀ e ∈ l, p e = false) : l.filter p = [] := by
  induction l with
  | nil => rfl
  | cons e rest ih =>
    have he := h e (by simp)
    simp only [List.filter_cons, he, Bool.false_eq_true, if_false]
    exact ih (fun x hx => h x (by simp [hx]))

/-- A list is a prefix of itself followed by anything (`isPrefixOf`). -/
theorem isPrefixOfAppendSelf : ∀ l r : List Char, l.isPrefixOf (l ++ r) = true
  | [], _ => by simp [List.isPrefixOf]
  | c :: cs, r => by
    simp only [List.cons_append, List.isPrefixOf_cons₂_self]
    exact isPrefixOfAppendSelf cs r

/-- Every snapshot file name of a session starts with the session id. -/
theorem startsWithTempFileName (sessionId ty : String) :
    strStartsWith sessionId (tempFileName sessionId ty) = true := by
  have hd : (tempFileName sessionId ty).toList
      = sessionId.toList ++ ("_" ++ ty ++ ".json").toList := by
    simp [tempFileName, String.toList]
  simp only [strStartsWith, hd]
  exact isPrefixOfAppendSelf sessionId.toList _

/-- A store holding no file of this session has snapshot count 0. -/
theorem snapFreshZero (temp : TempStore) (sessionId : String)
    (h : ∀ e ∈ temp, strStartsWith sessionId e.1 = false) :
    snapCount temp sessionId = 0 := by
  simp [snapCount, filterNilOfFalse _ _ h]

/-- Writing the first snapshot of a session into a store that holds none
of its files appends one file. -/
theorem saveTempFresh (temp : TempStore) (sessionId ty : String) (v : ℕ)
    (h : ∀ e ∈ temp, strStartsWith sessionId e.1 = false) :
    saveTempData temp sessionId ty v = temp ++ [(tempFileName sessionId ty, v)] := by
  have hany : temp.any (fun e => e.1 = tempFileName sessionId ty) = false := by
    rw [List.any_eq_false]
    intro e he
    simp only [decide_eq_true_eq]
    intro heq
    have := h e he
    rw [heq] at this
    rw [startsWithTempFileName sessionId ty] at this
    exact Bool.true_eq_false.mp this
  simp [saveTempData, writeTemp, hany]

/-- After writing the first snapshot, the session has exactly one. -/
theorem snapAfterSave (temp : TempStore) (sessionId ty : String) (v : ℕ)
    (h : ∀ e ∈ temp, strStartsWith sessionId e.1 = false) :
    snapCount (saveTempData temp sessionId ty v) sessionId = 1 := by
  rw [saveTempFresh temp sessionId ty v h]
  simp [snapCount, List.filter_append, filterNilOfFalse _ _ h,
    startsWithTempFileName sessionId ty]

/-- Deleting the temp data of a session leaves it with no snapshot. -/
theorem snapAfterDelete (temp : TempStore) (sessionId : String) :
    snapCount (deleteTempData temp sessionId) sessionId = 0 := by
  simp only [snapCount, deleteTempData]
  induction temp with
  | nil => rfl
  | cons e rest ih =>
    by_cases hp : strStartsWith sessionId e.1 = true
    · simp [List.filter_cons, hp, ih]
    · simp only [Bool.not_eq_true] at hp
      simp [List.filter_cons, hp, ih]

/-- C9 (amended): reading the staging store for a session id that is not a
prefix of any stored file name returns the explicit `null` result, and a
read never signals absence by an exception (it always resolves). -/
theorem C9_absent_read :
    (∀ (store : TempStore) (sessionId : String),
      (∀ e ∈ store, strStartsWith sessionId e.1 = false) →
      loadTempData store sessionId = Except.ok none)
    ∧ (∀ (store : TempStore) (sessionId : String),
      ∃ v : Option ℕ, loadTempData store sessionId = Except.ok v) := by
  constructor
  · intro store sessionId h
    simp [loadTempData, filterNilOfFalse _ _ h]
  · intro store sessionId
    unfold loadTempData
    cases store.filter (fun e => strStartsWith sessionId e.1) with
    | nil => exact ⟨none, rfl⟩
    | cons e rest => exact ⟨some e.2, rfl⟩

/-- C9 witness: `C9_absent_read` applied to a store holding only a file of
an unrelated session. -/
theorem C9_absent_read_witness :
    loadTempData [("other_profile.json", 3)] "sess" = Except.ok none :=
  C9_absent_read.1 [("other_profile.json", 3)] "sess" (by decide)

/-- C9 counterexample: session `local_1` has no snapshot of its own (no
stored name extends `local_1_`), yet the prefix-based lookup returns the
snapshot of session `local_12` instead of the `null` result the claim
requires. -/
theorem C9_prefix_collision :
    isSnapshotName "local_1" "local_12_profile.json" = false
    ∧ loadTempData [("local_12_profile.json", 7)] "local_1" = Except.ok (some 7)
    ∧ (Except.ok (some 7) : Except String (Option ℕ)) ≠ Except.ok none := by
  refine ⟨by decide, rfl, ?_⟩
  intro h
  injection h with h2
  cases h2

/-- C4 (amended): starting from a temp store holding no file of the
session, a session closing `completed` has no staging snapshot afterward
and one closing `incomplete` retains exactly one; a session closing
`failed` retains exactly one when the unrecoverable error struck after the
staging write, but none at all when the producer failed before the staging
write (the snapshot was never created). -/
theorem C4_staging_retention (shareData : Bool) (st : DbState) (temp : TempStore)
    (sessionId : String) (tweets : List RawTweet) (crash : CrashPoint) (now : ℕ)
    (h : ∀ e ∈ temp, strStartsWith sessionId e.1 = false) :
    ((scrapeProfileFlow shareData st temp sessionId tweets crash now).2.2 = "completed" →
      snapCount (scrapeProfileFlow shareData st temp sessionId tweets crash now).2.1 sessionId = 0)
    ∧ ((scrapeProfileFlow shareData st temp sessionId tweets crash now).2.2 = "incomplete" →
      snapCount (scrapeProfileFlow shareData st temp sessionId tweets crash now).2.1 sessionId = 1)
    ∧ (crash = CrashPoint.afterStaging →
      (scrapeProfileFlow shareData st temp sessionId tweets crash now).2.2 = "failed"
      ∧ snapCount (scrapeProfileFlow shareData st temp sessionId tweets crash now).2.1 sessionId = 1)
    ∧ (crash = CrashPoint.beforeStaging →
      (scrapeProfileFlow shareData st temp sessionId tweets crash now).2.2 = "failed"
      ∧ snapCount (scrapeProfileFlow shareData st temp sessionId tweets crash now).2.1 sessionId = 0) := by
  cases crash with
  | beforeStaging =>
    have hstat : (scrapeProfileFlow shareData st temp sessionId tweets CrashPoint.beforeStaging now).2.2
        = "failed" := rfl
    have htemp : (scrapeProfileFlow shareData st temp sessionId tweets CrashPoint.beforeStaging now).2.1
        = temp := rfl
    refine ⟨?_, ?_, ?_, ?_⟩
    · intro hc
      rw [hstat] at hc
      exact absurd hc (by decide)
    · intro hc
      rw [hstat] at hc
      exact absurd hc (by decide)
    · intro hc
      cases hc
    · intro _
      rw [htemp]
      exact ⟨hstat, snapFreshZero temp sessionId h⟩
  | afterStaging =>
    have hstat : (scrapeProfileFlow shareData st temp sessionId tweets CrashPoint.afterStaging now).2.2
        = "failed" := rfl
    have htemp : (scrapeProfileFlow shareData st temp sessionId tweets CrashPoint.afterStaging now).2.1
        = saveTempData temp sessionId "profile" 0 := rfl
    refine ⟨?_, ?_, ?_, ?_⟩
    · intro hc
      rw [hstat] at hc
      exact absurd hc (by decide)
    · intro hc
      rw [hstat] at hc
      exact absurd hc (by decide)
    · intro _
      rw [htemp]
      exact ⟨hstat, snapAfterSave temp sessionId "profile" 0 h⟩
    · intro hc
      cases hc
  | noCrash =>
    by_cases hpos : 0 < (commitLoop shareData sessionId now st tweets).2.1
    · have hstat : (scrapeProfileFlow shareData st temp sessionId tweets CrashPoint.noCrash now).2.2
          = "completed" := by
        simp [scrapeProfileFlow, hpos]
      have htemp : (scrapeProfileFlow shareData st temp sessionId tweets CrashPoint.noCrash now).2.1
          = deleteTempData (saveTempData temp sessionId "profile" 0) sessionId := by
        simp [scrapeProfileFlow, hpos]
      refine ⟨?_, ?_, ?_, ?_⟩
      · intro _
        rw [htemp]
        exact snapAfterDelete _ sessionId
      · intro hc
        rw [hstat] at hc
        exact absurd hc (by decide)
      · intro hc
        cases hc
      · intro hc
        cases hc
    · have hstat : (scrapeProfileFlow shareData st temp sessionId tweets CrashPoint.noCrash now).2.2
          = "incomplete" := by
        simp [scrapeProfileFlow, hpos]
      have htemp : (scrapeProfileFlow shareData st temp sessionId tweets CrashPoint.noCrash now).2.1
          = saveTempData temp sessionId "profile" 0 := by
        simp [scrapeProfileFlow, hpos]
      refine ⟨?_, ?_, ?_, ?_⟩
      · intro hc
        rw [hstat] at hc
        exact absurd hc (by decide)
      · intro _
        rw [htemp]
        exact snapAfterSave temp sessionId "profile" 0 h
      · intro hc
        cases hc
      · intro hc
        cases hc

/-- C4 witness: `C4_staging_retention` on a crash after the staging write
(one snapshot retained) — applied at a concrete empty temp store. -/
theorem C4_staging_witness :
    (scrapeProfileFlow false ⟨some (freshSessionData "s" 0), [], []⟩ [] "s" []
        CrashPoint.afterStaging 0).2.2 = "failed"
    ∧ snapCount (scrapeProfileFlow false ⟨some (freshSessionData "s" 0), [], []⟩ [] "s" []
        CrashPoint.afterStaging 0).2.1 "s" = 1 :=
  (C4_staging_retention false ⟨some (freshSessionData "s" 0), [], []⟩ [] "s" []
    CrashPoint.afterStaging 0 (by simp)).2.2.1 rfl

/-- C4 counterexample: a producer error before the staging write closes
the session `failed` with zero snapshots, where the claim requires exactly
one for every non-`completed` terminal status. -/
theorem C4_failed_without_snapshot :
    (scrapeProfileFlow false ⟨some (freshSessionData "s" 0), [], []⟩ [] "s" []
        CrashPoint.beforeStaging 0).2.2 = "failed"
    ∧ snapCount (scrapeProfileFlow false ⟨some (freshSessionData "s" 0), [], []⟩ [] "s" []
        CrashPoint.beforeStaging 0).2.1 "s" = 0
    ∧ (0 : ℕ) ≠ 1 :=
  ⟨rfl, rfl, by decide⟩

/-- A successful `isPrefixOf` decomposes the larger list. -/
theorem isPrefixOfEqAppend : ∀ l1 l2 : List Char, l1.isPrefixOf l2 = true →
    l2 = l1 ++ l2.drop l1.length
  | [], l2, _ => by simp
  | a :: as, [], h => by simp at h
  | a :: as, b :: bs, h => by
    rw [List.isPrefixOf_cons₂, Bool.and_eq_true, beq_iff_eq] at h
    obtain ⟨rfl, h2⟩ := h
    simpa using isPrefixOfEqAppend as bs h2

/-- A separator starting with `c0` is no prefix of a list starting with a
different character. -/
theorem isPrefixOfConsFalse (sep : List Char) (c0 c : Char) (l : List Char)
    (hh : sep.head? = some c0) (hne : c ≠ c0) : sep.isPrefixOf (c :: l) = false := by
  cases sep with
  | nil => simp at hh
  | cons a as =>
    simp only [List.head?_cons, Option.some.injEq] at hh
    subst hh
    rw [List.isPrefixOf_cons₂, Bool.and_eq_false_iff]
    left
    simp [Ne.symm hne]

/-- A found separator occurrence decomposes the list. -/
theorem findSepAppendEq (sep : List Char) : ∀ l a b : List Char,
    findSep sep l = some (a, b) → l = a ++ sep ++ b
  | [], a, b => by
    intro h
    simp [findSep] at h
  | c :: cs, a, b => by
    intro h
    simp only [findSep] at h
    by_cases hp : sep.isPrefixOf (c :: cs) = true
    · rw [if_pos hp] at h
      obtain ⟨rfl, rfl⟩ : a = [] ∧ (c :: cs).drop sep.length = b := by
        have := Option.some.inj h
        exact ⟨(Prod.mk.injEq _ _ _ _ ▸ this).1.symm, (Prod.mk.injEq _ _ _ _ ▸ this).2⟩
      simpa using isPrefixOfEqAppend sep (c :: cs) hp
    · rw [if_neg hp] at h
      cases hfs : findSep sep cs with
      | none =>
        rw [hfs] at h
        simp at h
      | some p =>
        rw [hfs] at h
        simp only [Option.map, Option.some.injEq, Prod.mk.injEq] at h
        obtain ⟨h1, h2⟩ := h
        subst h1
        subst h2
        have ih := findSepAppendEq sep cs p.1 p.2 (by rw [hfs])
        simp [ih]

/-- Searching for a separator that starts with `c0` in `seg ++ q` skips a
`seg` free of `c0` entirely. -/
theorem findSepShift (sep : List Char) (c0 : Char) (hh : sep.head? = some c0) :
    ∀ seg q : List Char, (∀ c ∈ seg, c ≠ c0) →
    findSep sep (seg ++ q) = (findSep sep q).map (fun p => (seg ++ p.1, p.2))
  | [], q, _ => by
    cases hq : findSep sep q <;> simp [hq]
  | c :: cs, q, hseg => by
    have hc : c ≠ c0 := hseg c (by simp)
    have hpf := isPrefixOfConsFalse sep c0 c (cs ++ q) hh hc
    rw [List.cons_append]
    simp only [findSep]
    rw [if_neg (by simp [hpf])]
    rw [findSepShift sep c0 hh cs q (fun x hx => hseg x (by simp [hx]))]
    cases hq : findSep sep q <;> simp [hq]

/-- `takeWhile (· ≠ '?')` over a query-free segment followed by nothing or
a query string returns exactly the segment. -/
theorem takeWhileSeg : ∀ seg r : List Char, (∀ c ∈ seg, c ≠ '?') →
    (r = [] ∨ r.head? = some '?') →
    (seg ++ r).takeWhile (fun c => c ≠ '?') = seg
  | [], r, _, hr => by
    rcases hr with rfl | hr
    · simp
    · cases r with
      | nil => simp
      | cons a t =>
        simp only [List.head?_cons, Option.some.injEq] at hr
        subst hr
        simp [List.takeWhile_cons]
  | c :: cs, r, hseg, hr => by
    have hc : c ≠ '?' := hseg c (by simp)
    have ih := takeWhileSeg cs r (fun x hx => hseg x (by simp [hx])) hr
    simpa [List.takeWhile_cons, hc] using ih

/-- C7: a record whose URL does not contain the `/status/` marker is
rejected with an error before anything else happens — the state is
unchanged and the outcome is the same for every metrics value, so no
metric normalization can have been applied — and for a well-formed URL
(the marker followed by a nonempty segment free of `/` and `?`, then
nothing or a query string) the derived record id is exactly that path
segment, query string removed. -/
theorem C7_record_id_derivation :
    (∀ (shareData mirrorOk : Bool) (st : DbState) (t : RawTweet) (sessionId : String)
      (now : ℕ) (m : RawMetrics),
      findSep statusMarker t.url = none →
      saveTweet shareData mirrorOk st t sessionId now = (st, Except.error "Invalid tweet URL")
      ∧ saveTweet shareData mirrorOk st ⟨t.url, t.user, t.content, t.timestamp, m⟩ sessionId now
        = (st, Except.error "Invalid tweet URL"))
    ∧ (∀ url pre seg q : List Char,
      seg ≠ [] → (∀ c ∈ seg, c ≠ '/' ∧ c ≠ '?') → (q = [] ∨ q.head? = some '?') →
      findSep statusMarker url = some (pre, seg ++ q) →
      extractTweetId url = some seg) := by
  constructor
  · intro shareData mirrorOk st t sessionId now m hnone
    constructor
    · simp [saveTweet, extractTweetId, splitSecondChunk, hnone]
    · simp [saveTweet, extractTweetId, splitSecondChunk, hnone]
  · intro url pre seg q hne hseg hq hfind
    have hquest : ∀ c ∈ seg, c ≠ '?' := fun c hc => (hseg c hc).2
    have hshift := findSepShift statusMarker '/' (by decide) seg q
      (fun c hc => (hseg c hc).1)
    simp only [extractTweetId, splitSecondChunk, hfind, Option.map, hshift]
    cases hq2 : findSep statusMarker q with
    | none =>
      simp only [hq2, Option.map]
      rw [takeWhileSeg seg q hquest hq]
      simp [hne]
    | some p =>
      simp only [hq2, Option.map]
      have hdec := findSepAppendEq statusMarker q p.1 p.2 hq2
      have hp1 : p.1 = [] ∨ p.1.head? = some '?' := by
        cases hp : p.1 with
        | nil => exact Or.inl rfl
        | cons a rest =>
          right
          rcases hq with rfl | hhead
          · rw [hp] at hdec
            simp at hdec
          · rw [hp] at hdec
            rw [hdec] at hhead
            simpa using hhead
      rw [takeWhileSeg seg p.1 hquest hp1]
      simp [hne]

/-- C7 witness: `C7_record_id_derivation` applied to a real tweet URL with
a query string, and to a marker-free URL committed against an empty state
(rejected, state unchanged). -/
theorem C7_record_id_witness :
    extractTweetId "https://x.com/u/status/1234567?s=20".toList = some "1234567".toList
    ∧ saveTweet true true ⟨none, [], []⟩
        ⟨"https://x.com/u/nostatus".toList, ⟨"h", none⟩, none, none,
          ⟨MetricValue.undef, MetricValue.undef, MetricValue.undef, MetricValue.undef⟩⟩
        "s" 0 = (⟨none, [], []⟩, Except.error "Invalid tweet URL") := by
  constructor
  · exact C7_record_id_derivation.2 "https://x.com/u/status/1234567?s=20".toList
      "https://x.com/u".toList "1234567".toList "?s=20".toList
      (by decide) (by decide) (Or.inr (by decide)) (by decide)
  · exact (C7_record_id_derivation.1 true true ⟨none, [], []⟩
      ⟨"https://x.com/u/nostatus".toList, ⟨"h", none⟩, none, none,
        ⟨MetricValue.undef, MetricValue.undef, MetricValue.undef, MetricValue.undef⟩⟩
      "s" 0 ⟨MetricValue.undef, MetricValue.undef, MetricValue.undef, MetricValue.undef⟩
      (by decide)).1

/-- After a local commit the id is present in the session file. -/
theorem localCommitMem (sd : SessionData) (t : RawTweet) (id : List Char) (now : ℕ) :
    (localCommit sd t id now).tweets.any (fun lt => lt.tweet_id = id) = true := by
  unfold localCommit
  by_cases h : sd.tweets.any (fun lt => lt.tweet_id = id) = true
  · rw [if_pos h]
    exact h
  · rw [if_neg h]
    simp

/-- A local commit of an id already present leaves the file untouched. -/
theorem localCommitDup (sd : SessionData) (t : RawTweet) (id : List Char) (now : ℕ)
    (h : sd.tweets.any (fun lt => lt.tweet_id = id) = true) :
    localCommit sd t id now = sd := by
  unfold localCommit
  rw [if_pos h]

/-- A local commit never touches the status field. -/
theorem localCommitStatus (sd : SessionData) (t : RawTweet) (id : List Char) (now : ℕ) :
    (localCommit sd t id now).status = sd.status := by
  unfold localCommit
  by_cases h : sd.tweets.any (fun lt => lt.tweet_id = id) = true
  · rw [if_pos h]
  · rw [if_neg h]

/-- After an upsert, the first document with the upserted `tweet_id`
carries exactly the upserted `$set` fields. -/
theorem upsertFindSelf : ∀ (coll : List MongoTweet) (doc : TweetDoc) (now : ℕ),
    ∃ ca : ℕ, (upsertFirst coll doc now).find? (fun mt => mt.doc.tweet_id = doc.tweet_id)
      = some ⟨doc, ca⟩
  | [], doc, now => ⟨now, by simp [upsertFirst, List.find?]⟩
  | mt :: rest, doc, now => by
    by_cases h : mt.doc.tweet_id = doc.tweet_id
    · exact ⟨mt.created_at, by simp [upsertFirst, h, List.find?]⟩
    · obtain ⟨ca, hca⟩ := upsertFindSelf rest doc now
      refine ⟨ca, ?_⟩
      have hd : (decide (mt.doc.tweet_id = doc.tweet_id)) = false := by
        simp [h]
      simp only [upsertFirst, if_neg h, List.find?, hd]
      exact hca

/-- Upserting the same `tweet_id` twice collapses to one upsert keeping
the first insertion time. -/
theorem upsertUpsert : ∀ (coll : List MongoTweet) (d1 d2 : TweetDoc) (n1 n2 : ℕ),
    d1.tweet_id = d2.tweet_id →
    upsertFirst (upsertFirst coll d1 n1) d2 n2 = upsertFirst coll d2 n1
  | [], d1, d2, n1, n2, h => by simp [upsertFirst, h]
  | mt :: rest, d1, d2, n1, n2, h => by
    by_cases hm : mt.doc.tweet_id = d1.tweet_id
    · have hm2 : mt.doc.tweet_id = d2.tweet_id := by rw [hm, h]
      simp [upsertFirst, hm, hm2, h]
    · have hm2 : ¬ mt.doc.tweet_id = d2.tweet_id := by
        rw [← h]
        exact hm
      simp only [upsertFirst, if_neg hm, if_neg hm2]
      rw [upsertUpsert rest d1 d2 n1 n2 h]

/-- Upserting documents that agree on `tweet_id` and `session_id` yields
the same per-session counts. -/
theorem upsertCountCongr : ∀ (coll : List MongoTweet) (d1 d2 : TweetDoc) (n : ℕ)
    (sessionId : String), d1.tweet_id = d2.tweet_id → d1.session_id = d2.session_id →
    sessionTweetCount (upsertFirst coll d1 n) sessionId
      = sessionTweetCount (upsertFirst coll d2 n) sessionId
  | [], d1, d2, n, sessionId, h1, h2 => by
    by_cases hs : d2.session_id = sessionId
    · simp [upsertFirst, sessionTweetCount, List.filter_cons, h2, hs]
    · simp [upsertFirst, sessionTweetCount, List.filter_cons, h2, hs]
  | mt :: rest, d1, d2, n, sessionId, h1, h2 => by
    by_cases hm : mt.doc.tweet_id = d1.tweet_id
    · have hm2 : mt.doc.tweet_id = d2.tweet_id := by rw [hm, h1]
      by_cases hs : d2.session_id = sessionId
      · simp [upsertFirst, hm, hm2, h1, sessionTweetCount, List.filter_cons, h2, hs]
      · simp [upsertFirst, hm, hm2, h1, sessionTweetCount, List.filter_cons, h2, hs]
    · have hm2 : ¬ mt.doc.tweet_id = d2.tweet_id := by
        rw [← h1]
        exact hm
      have ih := upsertCountCongr rest d1 d2 n sessionId h1 h2
      simp only [sessionTweetCount] at ih
      by_cases hs : mt.doc.session_id = sessionId
      · simp [upsertFirst, hm, hm2, sessionTweetCount, List.filter_cons, hs, ih]
      · simp [upsertFirst, hm, hm2, sessionTweetCount, List.filter_cons, hs, ih]

/-- The upserted document makes its session's count positive. -/
theorem upsertCountPos (coll : List MongoTweet) (doc : TweetDoc) (now : ℕ) :
    0 < sessionTweetCount (upsertFirst coll doc now) doc.session_id := by
  obtain ⟨ca, hca⟩ := upsertFindSelf coll doc now
  have hmem : (⟨doc, ca⟩ : MongoTweet) ∈ upsertFirst coll doc now :=
    List.mem_of_find?_eq_some hca
  have hmf : (⟨doc, ca⟩ : MongoTweet) ∈
      (upsertFirst coll doc now).filter (fun mt => mt.doc.session_id = doc.session_id) :=
    List.mem_filter.mpr ⟨hmem, by simp⟩
  unfold sessionTweetCount
  exact List.length_pos.mpr (List.ne_nil_of_mem hmf)

/-- If a session document is present, the per-commit count update stores
the count-derived status on it. -/
theorem getStatus_setSessionCount (sessions : List MongoSession) (sessionId : String)
    (count now : ℕ) (h : sessions.any (fun s => s.sid = sessionId) = true) :
    getSessionStatus (setSessionCount sessions sessionId count now) sessionId
      = some (if 0 < count then "completed" else "incomplete") := by
  induction sessions with
  | nil => simp at h
  | cons s ss ih =>
    by_cases hs : s.sid = sessionId
    · simp [setSessionCount, hs, getSessionStatus, List.find?]
    · simp only [List.any_cons, Bool.or_eq_true, decide_eq_true_eq] at h
      rcases h with h | h
      · exact absurd h hs
      · simp only [setSessionCount, if_neg hs]
        have := ih (by simpa using h)
        simpa [getSessionStatus, List.find?, hs] using this

/-- Joint shape of a successful commit: the local file always receives the
local commit, and the tweets collection receives the upsert exactly when
the shared backend is enabled. -/
theorem saveTweetParts (shareData : Bool) (st : DbState) (t : RawTweet) (id : List Char)
    (sessionId : String) (now : ℕ) (h : extractTweetId t.url = some id) :
    (saveTweet shareData true st t sessionId now).1.localFile
      = some (localCommit (st.localFile.getD (freshSessionData sessionId now)) t id now)
    ∧ (saveTweet shareData true st t sessionId now).1.mongoTweets
      = (if shareData = true then upsertFirst st.mongoTweets (mkTweetDoc t sessionId id now) now
         else st.mongoTweets)
    ∧ (saveTweet shareData true st t sessionId now).2 = Except.ok true := by
  cases shareData <;> simp [saveTweet, h]

/-- C5 (amended): when the shared backend is enabled and the mirror write
throws, the already-performed local commit is not rolled back (the local
file is exactly what a pure local commit produces) and the shared store is
untouched, but the failure IS propagated to the caller: the commit
resolves with an error, not with success. -/
theorem C5_mirror_failure (st : DbState) (t : RawTweet) (id : List Char)
    (sessionId : String) (now : ℕ) (h : extractTweetId t.url = some id) :
    (saveTweet true false st t sessionId now).2 = Except.error "mirror write failed"
    ∧ (saveTweet true false st t sessionId now).1.localFile
      = (saveTweet false true st t sessionId now).1.localFile
    ∧ (saveTweet true false st t sessionId now).1.mongoTweets = st.mongoTweets
    ∧ (saveTweet true false st t sessionId now).1.mongoSessions = st.mongoSessions := by
  refine ⟨?_, ?_, ?_, ?_⟩ <;> simp [saveTweet, h]

/-- C5 witness: `C5_mirror_failure` at a concrete commit whose mirror
fails: the result is the error, and the local file matches the pure local
commit. -/
theorem C5_mirror_witness :
    (saveTweet true false ⟨none, [], []⟩
        ⟨"https://x.com/u/status/9".toList, ⟨"h", none⟩, none, none,
          ⟨MetricValue.undef, MetricValue.undef, MetricValue.undef, MetricValue.undef⟩⟩
        "s" 0).2 = Except.error "mirror write failed"
    ∧ (saveTweet true false ⟨none, [], []⟩
        ⟨"https://x.com/u/status/9".toList, ⟨"h", none⟩, none, none,
          ⟨MetricValue.undef, MetricValue.undef, MetricValue.undef, MetricValue.undef⟩⟩
        "s" 0).1.localFile
      = (saveTweet false true ⟨none, [], []⟩
        ⟨"https://x.com/u/status/9".toList, ⟨"h", none⟩, none, none,
          ⟨MetricValue.undef, MetricValue.undef, MetricValue.undef, MetricValue.undef⟩⟩
        "s" 0).1.localFile :=
  ⟨(C5_mirror_failure ⟨none, [], []⟩
      ⟨"https://x.com/u/status/9".toList, ⟨"h", none⟩, none, none,
        ⟨MetricValue.undef, MetricValue.undef, MetricValue.undef, MetricValue.undef⟩⟩
      "9".toList "s" 0 (by decide)).1,
   (C5_mirror_failure ⟨none, [], []⟩
      ⟨"https://x.com/u/status/9".toList, ⟨"h", none⟩, none, none,
        ⟨MetricValue.undef, MetricValue.undef, MetricValue.undef, MetricValue.undef⟩⟩
      "9".toList "s" 0 (by decide)).2.1⟩

/-- C5 counterexample: the claim says the commit still reports success to
its caller when the mirror write fails; in fact it resolves with an error
(while the local commit stands — one tweet is in the local file). -/
theorem C5_mirror_error_propagates :
    (saveTweet true false ⟨none, [], []⟩
        ⟨"https://x.com/u/status/9".toList, ⟨"h", none⟩, none, none,
          ⟨MetricValue.undef, MetricValue.undef, MetricValue.undef, MetricValue.undef⟩⟩
        "s" 0).2 ≠ Except.ok true
    ∧ ((saveTweet true false ⟨none, [], []⟩
        ⟨"https://x.com/u/status/9".toList, ⟨"h", none⟩, none, none,
          ⟨MetricValue.undef, MetricValue.undef, MetricValue.undef, MetricValue.undef⟩⟩
        "s" 0).1.localFile.map (fun sd => sd.tweets.length)) = some 1 := by
  constructor
  · intro hcontra
    rw [show (saveTweet true false (⟨none, [], []⟩ : DbState)
        ⟨"https://x.com/u/status/9".toList, ⟨"h", none⟩, none, none,
          ⟨MetricValue.undef, MetricValue.undef, MetricValue.undef, MetricValue.undef⟩⟩
        "s" 0).2 = Except.error "mirror write failed" from rfl] at hcontra
    exact Except.noConfusion hcontra
  · rfl

/-- C6 (amended): in local mode no per-record commit ever writes the
session status (it is preserved exactly), but in shared mode every
successful per-record commit rewrites the session document status to the
count-derived value — after committing a record of the session this is the
terminal value `completed`, assigned before any close. -/
theorem C6_status_writes :
    (∀ (mirrorOk : Bool) (st : DbState) (t : RawTweet) (sessionId : String) (now : ℕ),
      getLocalStatus (saveTweet false mirrorOk st t sessionId now).1 = getLocalStatus st)
    ∧ (∀ (st : DbState) (t : RawTweet) (id : List Char) (sessionId : String) (now : ℕ),
      extractTweetId t.url = some id →
      st.mongoSessions.any (fun s => s.sid = sessionId) = true →
      getSessionStatus ((saveTweet true true st t sessionId now).1.mongoSessions) sessionId
        = some "completed") := by
  constructor
  · intro mirrorOk st t sessionId now
    cases hid : extractTweetId t.url with
    | none => simp [saveTweet, hid]
    | some id =>
      simp only [saveTweet, hid]
      cases hlf : st.localFile with
      | none =>
        simp [getLocalStatus, hlf, localCommitStatus, freshSessionData]
      | some sd =>
        simp [getLocalStatus, hlf, localCommitStatus]
  · intro st t id sessionId now hid hany
    have hpos : 0 < sessionTweetCount
        (upsertFirst st.mongoTweets (mkTweetDoc t sessionId id now) now) sessionId :=
      upsertCountPos st.mongoTweets (mkTweetDoc t sessionId id now) now
    have hshape : (saveTweet true true st t sessionId now).1.mongoSessions
        = setSessionCount st.mongoSessions sessionId
            (sessionTweetCount (upsertFirst st.mongoTweets (mkTweetDoc t sessionId id now) now)
              sessionId) now := by
      simp [saveTweet, hid]
    rw [hshape]
    rw [getStatus_setSessionCount _ _ _ _ hany]
    rw [if_pos hpos]

/-- C6 witness: `C6_status_writes` at a concrete local commit (status
untouched) and a concrete shared commit into an `in_progress` session
(status rewritten to `completed` by the commit itself). -/
theorem C6_status_witness :
    getLocalStatus (saveTweet false true ⟨some (freshSessionData "s" 0), [], []⟩
        ⟨"https://x.com/u/status/9".toList, ⟨"h", none⟩, none, none,
          ⟨MetricValue.undef, MetricValue.undef, MetricValue.undef, MetricValue.undef⟩⟩
        "s" 1).1
      = getLocalStatus ⟨some (freshSessionData "s" 0), [], []⟩
    ∧ getSessionStatus ((saveTweet true true
        ⟨none, [], [⟨"s", "in_progress", none, none, none, none, 0⟩]⟩
        ⟨"https://x.com/u/status/9".toList, ⟨"h", none⟩, none, none,
          ⟨MetricValue.undef, MetricValue.undef, MetricValue.undef, MetricValue.undef⟩⟩
        "s" 1).1.mongoSessions) "s" = some "completed" :=
  ⟨C6_status_writes.1 true ⟨some (freshSessionData "s" 0), [], []⟩
      ⟨"https://x.com/u/status/9".toList, ⟨"h", none⟩, none, none,
        ⟨MetricValue.undef, MetricValue.undef, MetricValue.undef, MetricValue.undef⟩⟩ "s" 1,
   C6_status_writes.2 ⟨none, [], [⟨"s", "in_progress", none, none, none, none, 0⟩]⟩
      ⟨"https://x.com/u/status/9".toList, ⟨"h", none⟩, none, none,
        ⟨MetricValue.undef, MetricValue.undef, MetricValue.undef, MetricValue.undef⟩⟩
      "9".toList "s" 1 (by decide) (by decide)⟩

/-- C6 counterexample: a single per-record commit in shared mode rewrites
the open session's status from `in_progress` to the terminal value
`completed` before any close, so the status is not assigned exactly once
at close time. -/
theorem C6_commit_writes_terminal :
    getSessionStatus ((saveTweet true true
        ⟨none, [], [⟨"sx", "in_progress", none, none, none, none, 0⟩]⟩
        ⟨"https://x.com/u/status/9".toList, ⟨"h", none⟩, none, none,
          ⟨MetricValue.undef, MetricValue.undef, MetricValue.undef, MetricValue.undef⟩⟩
        "sx" 1).1.mongoSessions) "sx" = some "completed"
    ∧ ("completed" : String) ≠ "in_progress" :=
  ⟨rfl, by decide⟩

/-- C1 (amended): committing the same record id twice into a session
leaves the local session file — its committed set, its `tweet_count`, and
the stored record, including its raw metrics — entirely unchanged after
the second commit (no local metric refresh), while in shared mode the
mirrored MongoDB record is refreshed to the latest commit's normalized
metrics and the session's shared committed count is unchanged. -/
theorem C1_idempotent_recommit (shareData : Bool) (st : DbState) (t1 t2 : RawTweet)
    (id : List Char) (sessionId : String) (n1 n2 : ℕ)
    (h1 : extractTweetId t1.url = some id) (h2 : extractTweetId t2.url = some id) :
    (saveTweet shareData true (saveTweet shareData true st t1 sessionId n1).1 t2 sessionId n2).1.localFile
      = (saveTweet shareData true st t1 sessionId n1).1.localFile
    ∧ (shareData = true → ∃ mt : MongoTweet,
        ((saveTweet shareData true (saveTweet shareData true st t1 sessionId n1).1 t2 sessionId n2).1.mongoTweets).find?
            (fun x => x.doc.tweet_id = id) = some mt
          ∧ mt.doc.metrics = parseAllMetrics t2.metrics)
    ∧ (shareData = true →
        sessionTweetCount
            (saveTweet shareData true (saveTweet shareData true st t1 sessionId n1).1 t2 sessionId n2).1.mongoTweets
            sessionId
          = sessionTweetCount (saveTweet shareData true st t1 sessionId n1).1.mongoTweets sessionId) := by
  have p1 := saveTweetParts shareData st t1 id sessionId n1 h1
  have p2 := saveTweetParts shareData (saveTweet shareData true st t1 sessionId n1).1 t2 id sessionId n2 h2
  refine ⟨?_, ?_, ?_⟩
  · rw [p2.1, p1.1]
    simp only [Option.getD_some]
    rw [localCommitDup _ t2 id n2 (localCommitMem _ t1 id n1)]
  · intro hs
    subst hs
    have hm2 : (saveTweet true true (saveTweet true true st t1 sessionId n1).1 t2 sessionId n2).1.mongoTweets
        = upsertFirst st.mongoTweets (mkTweetDoc t2 sessionId id n2) n1 := by
      rw [p2.2.1, p1.2.1]
      simp only [if_pos rfl]
      exact upsertUpsert st.mongoTweets (mkTweetDoc t1 sessionId id n1)
        (mkTweetDoc t2 sessionId id n2) n1 n2 rfl
    obtain ⟨ca, hca⟩ := upsertFindSelf st.mongoTweets (mkTweetDoc t2 sessionId id n2) n1
    refine ⟨⟨mkTweetDoc t2 sessionId id n2, ca⟩, ?_, rfl⟩
    rw [hm2]
    exact hca
  · intro hs
    subst hs
    have hm2 : (saveTweet true true (saveTweet true true st t1 sessionId n1).1 t2 sessionId n2).1.mongoTweets
        = upsertFirst st.mongoTweets (mkTweetDoc t2 sessionId id n2) n1 := by
      rw [p2.2.1, p1.2.1]
      simp only [if_pos rfl]
      exact upsertUpsert st.mongoTweets (mkTweetDoc t1 sessionId id n1)
        (mkTweetDoc t2 sessionId id n2) n1 n2 rfl
    rw [hm2, p1.2.1]
    simp only [if_pos rfl]
    exact upsertCountCongr st.mongoTweets (mkTweetDoc t2 sessionId id n2)
      (mkTweetDoc t1 sessionId id n1) n1 sessionId rfl rfl

/-- C1 witness: `C1_idempotent_recommit` on a concrete shared-mode double
commit of tweet 9 with metrics `1` then `2`: local file unchanged by the
second commit, mirrored record refreshed, shared count unchanged. -/
theorem C1_recommit_witness :
    (saveTweet true true (saveTweet true true ⟨none, [], []⟩
        ⟨"https://x.com/u/status/9".toList, ⟨"h", none⟩, none, none,
          ⟨MetricValue.str "1".toList, MetricValue.undef, MetricValue.undef, MetricValue.undef⟩⟩
        "s" 1).1
        ⟨"https://x.com/u/status/9".toList, ⟨"h", none⟩, none, none,
          ⟨MetricValue.str "2".toList, MetricValue.undef, MetricValue.undef, MetricValue.undef⟩⟩
        "s" 2).1.localFile
      = (saveTweet true true ⟨none, [], []⟩
        ⟨"https://x.com/u/status/9".toList, ⟨"h", none⟩, none, none,
          ⟨MetricValue.str "1".toList, MetricValue.undef, MetricValue.undef, MetricValue.undef⟩⟩
        "s" 1).1.localFile
    ∧ ∃ mt : MongoTweet,
        ((saveTweet true true (saveTweet true true ⟨none, [], []⟩
            ⟨"https://x.com/u/status/9".toList, ⟨"h", none⟩, none, none,
              ⟨MetricValue.str "1".toList, MetricValue.undef, MetricValue.undef, MetricValue.undef⟩⟩
            "s" 1).1
            ⟨"https://x.com/u/status/9".toList, ⟨"h", none⟩, none, none,
              ⟨MetricValue.str "2".toList, MetricValue.undef, MetricValue.undef, MetricValue.undef⟩⟩
            "s" 2).1.mongoTweets).find? (fun x => x.doc.tweet_id = "9".toList) = some mt
          ∧ mt.doc.metrics = parseAllMetrics
              ⟨MetricValue.str "2".toList, MetricValue.undef, MetricValue.undef, MetricValue.undef⟩ := by
  have h := C1_idempotent_recommit true ⟨none, [], []⟩
    ⟨"https://x.com/u/status/9".toList, ⟨"h", none⟩, none, none,
      ⟨MetricValue.str "1".toList, MetricValue.undef, MetricValue.undef, MetricValue.undef⟩⟩
    ⟨"https://x.com/u/status/9".toList, ⟨"h", none⟩, none, none,
      ⟨MetricValue.str "2".toList, MetricValue.undef, MetricValue.undef, MetricValue.undef⟩⟩
    "9".toList "s" 1 2 (by decide) (by decide)
  exact ⟨h.1, h.2.1 rfl⟩

/-- C1 counterexample: in local-only mode the stored record does NOT
reflect the latest commit's metrics — after committing tweet 9 with
replies `1` and re-committing with replies `2`, the file still holds
replies `1`. -/
theorem C1_local_metrics_stale :
    ((saveTweet false true (saveTweet false true ⟨some (freshSessionData "s" 0), [], []⟩
        ⟨"https://x.com/u/status/9".toList, ⟨"h", none⟩, none, none,
          ⟨MetricValue.str "1".toList, MetricValue.undef, MetricValue.undef, MetricValue.undef⟩⟩
        "s" 1).1
        ⟨"https://x.com/u/status/9".toList, ⟨"h", none⟩, none, none,
          ⟨MetricValue.str "2".toList, MetricValue.undef, MetricValue.undef, MetricValue.undef⟩⟩
        "s" 2).1.localFile.map (fun sd => sd.tweets.map (fun lt => lt.metrics.replies)))
      = some [MetricValue.str "1".toList]
    ∧ MetricValue.str "1".toList ≠ MetricValue.str "2".toList :=
  ⟨rfl, by decide⟩

/-- C10: a local commit of any record with a derivable id — duplicate or
new — resolves with the same success value `true`, so over a list of
commits whose URLs all carry ids, the orchestrator's success counter
equals the number of (non-throwing) commit calls; committing the same
record twice therefore yields success count 2 with only one record
persisted, and the close derives its terminal data from that inflated
count (`tweets_found = 2`, status `completed`, one stored tweet). -/
theorem C10_success_counter :
    (∀ (st : DbState) (t : RawTweet) (id : List Char) (sessionId : String) (now : ℕ),
      extractTweetId t.url = some id →
      (saveTweet false true st t sessionId now).2 = Except.ok true)
    ∧ (∀ (sessionId : String) (now : ℕ) (ts : List RawTweet) (st : DbState),
      (∀ t ∈ ts, (extractTweetId t.url).isSome = true) →
      (commitLoop false sessionId now st ts).2.1 = ts.length)
    ∧ (commitLoop false "s" 0 ⟨some (freshSessionData "s" 0), [], []⟩
        [⟨"https://x.com/u/status/9".toList, ⟨"h", none⟩, none, none,
          ⟨MetricValue.undef, MetricValue.undef, MetricValue.undef, MetricValue.undef⟩⟩,
         ⟨"https://x.com/u/status/9".toList, ⟨"h", none⟩, none, none,
          ⟨MetricValue.undef, MetricValue.undef, MetricValue.undef, MetricValue.undef⟩⟩]).2.1 = 2
    ∧ ((commitLoop false "s" 0 ⟨some (freshSessionData "s" 0), [], []⟩
        [⟨"https://x.com/u/status/9".toList, ⟨"h", none⟩, none, none,
          ⟨MetricValue.undef, MetricValue.undef, MetricValue.undef, MetricValue.undef⟩⟩,
         ⟨"https://x.com/u/status/9".toList, ⟨"h", none⟩, none, none,
          ⟨MetricValue.undef, MetricValue.undef, MetricValue.undef, MetricValue.undef⟩⟩]).1.localFile.map
        (fun sd => sd.tweets.length)) = some 1
    ∧ ((scrapeProfileFlow false ⟨some (freshSessionData "s" 0), [], []⟩ [] "s"
        [⟨"https://x.com/u/status/9".toList, ⟨"h", none⟩, none, none,
          ⟨MetricValue.undef, MetricValue.undef, MetricValue.undef, MetricValue.undef⟩⟩,
         ⟨"https://x.com/u/status/9".toList, ⟨"h", none⟩, none, none,
          ⟨MetricValue.undef, MetricValue.undef, MetricValue.undef, MetricValue.undef⟩⟩]
        CrashPoint.noCrash 0).1.localFile.map
        (fun sd => (sd.tweets.length, sd.tweets_found, sd.status)))
      = some (1, some 2, some "completed") := by
  refine ⟨?_, ?_, rfl, rfl, rfl⟩
  · intro st t id sessionId now h
    simp [saveTweet, h]
  · intro sessionId now ts
    induction ts with
    | nil =>
      intro st _
      simp [commitLoop]
    | cons t ts ih =>
      intro st hall
      obtain ⟨id, hid⟩ := Option.isSome_iff_exists.mp (hall t (by simp))
      cases hS : saveTweet false true st t sessionId now with
      | mk st1 r =>
        have hr : r = Except.ok true := by
          have h2 : (saveTweet false true st t sessionId now).2 = Except.ok true := by
            simp [saveTweet, hid]
          rw [hS] at h2
          exact h2
        subst hr
        simp only [commitLoop, hS]
        have := ih st1 (fun x hx => hall x (List.mem_cons_of_mem _ hx))
        simp [this]

/-- C10 witness: `C10_success_counter` applied to a concrete commit and a
concrete singleton loop. -/
theorem C10_success_counter_witness :
    (saveTweet false true ⟨none, [], []⟩
        ⟨"https://x.com/u/status/9".toList, ⟨"h", none⟩, none, none,
          ⟨MetricValue.undef, MetricValue.undef, MetricValue.undef, MetricValue.undef⟩⟩
        "s" 0).2 = Except.ok true
    ∧ (commitLoop false "s" 0 ⟨none, [], []⟩
        [⟨"https://x.com/u/status/9".toList, ⟨"h", none⟩, none, none,
          ⟨MetricValue.undef, MetricValue.undef, MetricValue.undef, MetricValue.undef⟩⟩]).2.1 = 1 := by
  constructor
  · exact C10_success_counter.1 ⟨none, [], []⟩
      ⟨"https://x.com/u/status/9".toList, ⟨"h", none⟩, none, none,
        ⟨MetricValue.undef, MetricValue.undef, MetricValue.undef, MetricValue.undef⟩⟩
      "9".toList "s" 0 (by decide)
  · have h := C10_success_counter.2.1 "s" 0
      [⟨"https://x.com/u/status/9".toList, ⟨"h", none⟩, none, none,
        ⟨MetricValue.undef, MetricValue.undef, MetricValue.undef, MetricValue.undef⟩⟩]
      ⟨none, [], []⟩ (by decide)
    simpa using h
